import Mathlib

/-!
Verification of the SimpleEQ audio plugin core (Source/PluginProcessor.h,
Source/PluginProcessor.cpp, Source/PluginEditor.cpp) against its
natural-language specification.

The development is a shallow embedding of the repository's code:

* machine floats are modelled as real numbers (`ℝ`);
* the JUCE coefficient-design entry points that the repository calls
  (`FilterDesign::designIIR{Low,High}passHighOrderButterworthMethod`,
  `IIR::Coefficients::makePeakFilter`) are modelled at the granularity the
  claims need: the list structure returned by the Butterworth designers is
  reproduced exactly (one first-order section for odd orders, `order / 2`
  biquad sections, with JUCE's Q formulas), and each designed section is
  represented by the design parameters passed to it rather than by the
  transcendental tap formulas, which no claim inspects;
* reference-counted coefficient pointers (`Filter::CoefficientsPtr`) are
  modelled as addresses into an explicit store for the aliasing claim, and
  by the stored value for the value-level chain claims;
* the `juce::AbstractFifo` single-producer/single-consumer index logic is
  reproduced operation by operation from `prepareToWrite` / `finishedWrite`
  / `prepareToRead` / `finishedRead` specialised to one-element transfers,
  which is the only way the repository uses it.
-/

namespace SimpleEQ

/-! ## Slope and ChainSettings (PluginProcessor.h lines 114-127) -/

/-- The C++ `enum Slope { Slope_12, Slope_24, Slope_36, Slope_48 }`. -/
inductive Slope where
  | Slope_12
  | Slope_24
  | Slope_36
  | Slope_48
  deriving DecidableEq, Repr

/-- The integral value of the `Slope` enumerator (C++ enums start at 0). -/
def Slope.toNat : Slope → ℕ
  | .Slope_12 => 0
  | .Slope_24 => 1
  | .Slope_36 => 2
  | .Slope_48 => 3

/-- The C++ `struct ChainSettings` with the C++ member initialisers as defaults. -/
structure ChainSettings where
  peakFreq : ℝ := 0
  peakGainInDecibels : ℝ := 0
  peakQuality : ℝ := 1
  lowCutFreq : ℝ := 0
  highCutFreq : ℝ := 0
  lowCutSlope : Slope := .Slope_12
  highCutSlope : Slope := .Slope_12

/-! ## Coefficient designers

`makeLowCutFilter` / `makeHighCutFilter` (PluginProcessor.h lines 194-204)
forward to `juce::dsp::FilterDesign<float>::designIIRHighpassHighOrderButterworthMethod`
(resp. `...Lowpass...`) with order `(slope + 1) * 2`.  The JUCE designer
returns a `ReferenceCountedArray` holding one first-order section when the
order is odd followed by `order / 2` second-order sections, each built from
(sampleRate, frequency, Q) with the Butterworth Q formula.  A designed
section is modelled by those design parameters. -/

/-- Whether a designed section is a lowpass or highpass section. -/
inductive FilterKind where
  | lowpass
  | highpass
  deriving DecidableEq, Repr

/-- One designed IIR section, identified by the parameters JUCE's
`makeFirstOrder{Low,High}Pass` / `make{Low,High}Pass` receive. -/
inductive Section where
  | firstOrder (kind : FilterKind) (sampleRate frequency : ℝ)
  | secondOrder (kind : FilterKind) (sampleRate frequency q : ℝ)

/-- The cutoff frequency a designed section was built from. -/
def Section.frequency : Section → ℝ
  | .firstOrder _ _ f => f
  | .secondOrder _ _ f _ => f

/-- JUCE's `FilterDesign<float>::designIIR{Low,High}passHighOrderButterworthMethod
(frequency, sampleRate, order)`: for odd `order`, one first-order section and
`order / 2` biquads with `Q = 1 / (2 cos ((i + 1) π / order))`; for even
`order`, `order / 2` biquads with `Q = 1 / (2 cos ((2 i + 1) π / (2 order)))`. -/
noncomputable def designIIRHighOrderButterworthMethod
    (kind : FilterKind) (frequency sampleRate : ℝ) (order : ℕ) : List Section :=
  if order % 2 = 1 then
    Section.firstOrder kind sampleRate frequency ::
      (List.range (order / 2)).map (fun i =>
        Section.secondOrder kind sampleRate frequency
          (1 / (2 * Real.cos (((i : ℝ) + 1) * Real.pi / (order : ℝ)))))
  else
    (List.range (order / 2)).map (fun i =>
      Section.secondOrder kind sampleRate frequency
        (1 / (2 * Real.cos ((2 * (i : ℝ) + 1) * Real.pi / ((order : ℝ) * 2)))))

/-- The repository's `makeLowCutFilter` (PluginProcessor.h lines 194-198): highpass design at
`lowCutFreq` with order `(lowCutSlope + 1) * 2`. -/
noncomputable def makeLowCutFilter (chainSettings : ChainSettings) (sampleRate : ℝ) :
    List Section :=
  designIIRHighOrderButterworthMethod .highpass chainSettings.lowCutFreq sampleRate
    ((chainSettings.lowCutSlope.toNat + 1) * 2)

/-- The repository's `makeHighCutFilter` (PluginProcessor.h lines 200-204): lowpass design at
`highCutFreq` with order `(highCutSlope + 1) * 2`. -/
noncomputable def makeHighCutFilter (chainSettings : ChainSettings) (sampleRate : ℝ) :
    List Section :=
  designIIRHighOrderButterworthMethod .lowpass chainSettings.highCutFreq sampleRate
    ((chainSettings.highCutSlope.toNat + 1) * 2)

/-! ## C1: number of coefficient sets returned by the cut designers -/

/-- C1 (counterexample): the claim says the cut-filter designer returns exactly
4 coefficient sets for every slope.  At slope 12 dB/Oct (`Slope_12`) the
requested order is 2, so the Butterworth designer returns a single biquad
section: the array has length 1, not 4. -/
theorem c1_counterexample :
    (makeLowCutFilter { lowCutFreq := 200, lowCutSlope := .Slope_12 } 44100).length = 1 ∧
      (makeLowCutFilter { lowCutFreq := 200, lowCutSlope := .Slope_12 } 44100).length ≠ 4 := by
  constructor <;>
    simp [makeLowCutFilter, designIIRHighOrderButterworthMethod, Slope.toNat] <;> decide

/-- C1 (amended): for every parameter combination the cut-filter designers
return exactly `slope + 1` coefficient sets (1, 2, 3, 4 for 12, 24, 36, 48
dB/Oct respectively) — the `(slope + 1) * 2`-order Butterworth decomposition —
not a fixed array of 4. -/
theorem c1_cut_designer_length (chainSettings : ChainSettings) (sampleRate : ℝ) :
    (makeLowCutFilter chainSettings sampleRate).length =
        chainSettings.lowCutSlope.toNat + 1 ∧
      (makeHighCutFilter chainSettings sampleRate).length =
        chainSettings.highCutSlope.toNat + 1 := by
  constructor
  · cases h : chainSettings.lowCutSlope <;>
      simp [makeLowCutFilter, designIIRHighOrderButterworthMethod, Slope.toNat, h] <;> rfl
  · cases h : chainSettings.highCutSlope <;>
      simp [makeHighCutFilter, designIIRHighOrderButterworthMethod, Slope.toNat, h] <;> rfl

/-! ## C2: `updateCoefficients` (PluginProcessor.cpp lines 263-265)

```
void updateCoefficients(const Coefficients &old, const Coefficients &replacements){
    *old = *replacements;
}
```

`Coefficients` is a reference-counted pointer to a coefficient object.  The
heap of coefficient objects is modelled as a store mapping addresses (`ℕ`) to
tap payloads (`α`); the call dereferences both pointers and copy-assigns the
replacement object's taps over the object `old` points to. -/

/-- The call `updateCoefficients(old, replacements)` acting on the store of coefficient
objects: the object at address `old` receives the tap values of the object at
address `replacements`; the pointers themselves are not rebound. -/
def updateCoefficients {α : Type} (store : ℕ → α) (old replacements : ℕ) : ℕ → α :=
  fun addr => if addr = old then store replacements else store addr

/-- C2 (counterexample): the claim says the coefficient object referenced by
`old` is never mutated in place.  With a store holding tap payload 0 at
address 0 and payload 1 at address 1, `updateCoefficients store 0 1` changes
the taps at address 0 from 0 to 1: the old object is mutated in place. -/
theorem c2_counterexample :
    ¬ (updateCoefficients (fun n : ℕ => n) 0 1 0 = (fun n : ℕ => n) 0) := by
  decide

/-- C2 (amended): `updateCoefficients old replacements` copy-assigns the
replacement's tap values into the coefficient object referenced by `old`,
mutating it in place — the reference is not swapped to a new object — and
leaves every other coefficient object unchanged. -/
theorem c2_updateCoefficients_assigns_in_place {α : Type} (store : ℕ → α)
    (old replacements addr : ℕ) (h : addr ≠ old) :
    updateCoefficients store old replacements old = store replacements ∧
      updateCoefficients store old replacements addr = store addr := by
  refine ⟨?_, ?_⟩ <;> simp [updateCoefficients, h]

/-- C2 witness: instantiating the amended theorem at a concrete store. -/
theorem c2_witness :
    updateCoefficients (fun n : ℕ => n + 10) 0 1 0 = 11 ∧
      updateCoefficients (fun n : ℕ => n + 10) 0 1 2 = 12 :=
  c2_updateCoefficients_assigns_in_place (fun n : ℕ => n + 10) 0 1 2 (by decide)

/-! ## C6: the designers forward parameters without clamping

`makePeakFilter` (PluginProcessor.cpp lines 245-250) forwards
`(sampleRate, peakFreq, peakQuality, decibelsToGain(peakGainInDecibels))`
verbatim to `juce::dsp::IIR::Coefficients<float>::makePeakFilter`.  The JUCE
routine documents (as debug assertions) the preconditions `sampleRate > 0`,
`0 < frequency <= sampleRate * 0.5` and `Q > 0`; nothing in the repository
clamps the parameters before the call. -/

/-- The argument tuple the repository passes to
`IIR::Coefficients<float>::makePeakFilter`. -/
structure PeakSpec where
  sampleRate : ℝ
  frequency : ℝ
  q : ℝ
  gainFactor : ℝ

/-- JUCE's `Decibels::decibelsToGain` with the default -100 dB floor. -/
noncomputable def decibelsToGain (decibels : ℝ) : ℝ :=
  if -100 < decibels then (10 : ℝ) ^ (decibels * 0.05) else 0

/-- The repository's `makePeakFilter` (PluginProcessor.cpp lines 245-250): the design request
forwarded to the JUCE peak-filter designer. -/
noncomputable def makePeakFilter (chainSettings : ChainSettings) (sampleRate : ℝ) :
    PeakSpec :=
  { sampleRate := sampleRate
    frequency := chainSettings.peakFreq
    q := chainSettings.peakQuality
    gainFactor := decibelsToGain chainSettings.peakGainInDecibels }

/-- The preconditions `jassert`ed by `IIR::Coefficients::makePeakFilter`
(and by the high-order Butterworth designers for their frequency argument). -/
def peakDesignPreconditions (p : PeakSpec) : Prop :=
  0 < p.sampleRate ∧ 0 < p.frequency ∧ p.frequency ≤ p.sampleRate * 0.5 ∧ 0 < p.q

/-- C6: the claim says the designers clamp a frequency at or above
`sampleRate / 2` below Nyquist before filter design.  At sample rate 22050 Hz
with Peak Freq = LowCut Freq = 20000 Hz (both inside the plugin's declared
20–20000 Hz parameter range), the repository forwards 20000 Hz unchanged:
the forwarded request violates the design routine's documented precondition
`frequency ≤ sampleRate * 0.5`, and the cut designer builds its section from
the unclamped 20000 Hz as well.  No clamping exists in the code. -/
theorem c6_no_clamping_at_designer_boundary :
    (makePeakFilter { peakFreq := 20000, peakQuality := 1, lowCutFreq := 20000 }
        22050).frequency = 20000 ∧
      ¬ peakDesignPreconditions
        (makePeakFilter { peakFreq := 20000, peakQuality := 1, lowCutFreq := 20000 }
          22050) ∧
      (makeLowCutFilter { peakFreq := 20000, peakQuality := 1, lowCutFreq := 20000 }
          22050).map Section.frequency = [20000] := by
  refine ⟨rfl, ?_, ?_⟩
  · rintro ⟨-, -, h, -⟩
    norm_num [makePeakFilter] at h
  · simp [makeLowCutFilter, designIIRHighOrderButterworthMethod, Slope.toNat]
    rfl

/-! ## Cut-filter cascade (PluginProcessor.h lines 129-192)

`CutFilter = ProcessorChain<Filter, Filter, Filter, Filter>`: four IIR stages,
each with a coefficient reference and a bypass flag (`ProcessorChain` bypass
defaults to `false`).  The chain is modelled at value level: one record per
stage holding the stage's current coefficient value and bypass flag. -/

/-- One `juce::dsp::IIR::Filter` link: its coefficient reference and the
enclosing `ProcessorChain`'s bypass flag for that index. -/
structure FilterStage (α : Type) where
  coefficients : α
  bypassed : Bool

/-- The `CutFilter`: the four links of `ProcessorChain<Filter, Filter, Filter,
Filter>`, addressed by the compile-time indices of `get<Index>`. -/
structure CutFilter (α : Type) where
  s0 : FilterStage α
  s1 : FilterStage α
  s2 : FilterStage α
  s3 : FilterStage α

/-- Accessor `get<Index>` on a `CutFilter`. -/
def CutFilter.stage (c : CutFilter α) : Fin 4 → FilterStage α
  | 0 => c.s0
  | 1 => c.s1
  | 2 => c.s2
  | 3 => c.s3

/-- The call `chain.setBypassed<Index>(b)`. -/
def CutFilter.setBypassed (i : Fin 4) (b : Bool) (c : CutFilter α) : CutFilter α :=
  match i with
  | 0 => { c with s0 := { c.s0 with bypassed := b } }
  | 1 => { c with s1 := { c.s1 with bypassed := b } }
  | 2 => { c with s2 := { c.s2 with bypassed := b } }
  | 3 => { c with s3 := { c.s3 with bypassed := b } }

/-- The helper `update<Index>(chain, coefficients)` (PluginProcessor.h lines 151-155):
`updateCoefficients(chain.get<Index>().coefficients, coefficients[Index])`
writes the new tap values into stage `Index`'s coefficient object, then
`chain.setBypassed<Index>(false)`. -/
def update (i : Fin 4) (chain : CutFilter α) (coefficients : Fin 4 → α) :
    CutFilter α :=
  match i with
  | 0 => { chain with s0 := { coefficients := coefficients 0, bypassed := false } }
  | 1 => { chain with s1 := { coefficients := coefficients 1, bypassed := false } }
  | 2 => { chain with s2 := { coefficients := coefficients 2, bypassed := false } }
  | 3 => { chain with s3 := { coefficients := coefficients 3, bypassed := false } }

/-- The function `updateCutFilter` (PluginProcessor.h lines 161-192): bypass all four
stages, then the `switch (slope)` whose cases fall through — `Slope_48` runs
`update<3>`, `update<2>`, `update<1>`, `update<0>`, `Slope_36` starts at
`update<2>`, and so on down to `Slope_12` running only `update<0>`. -/
def updateCutFilter (chain : CutFilter α) (coefficients : Fin 4 → α)
    (slope : Slope) : CutFilter α :=
  let c := chain.setBypassed 0 true |>.setBypassed 1 true
    |>.setBypassed 2 true |>.setBypassed 3 true
  match slope with
  | .Slope_48 =>
      update 0 (update 1 (update 2 (update 3 c coefficients) coefficients)
        coefficients) coefficients
  | .Slope_36 =>
      update 0 (update 1 (update 2 c coefficients) coefficients) coefficients
  | .Slope_24 => update 0 (update 1 c coefficients) coefficients
  | .Slope_12 => update 0 c coefficients

/-- C3: after `updateCutFilter chain coefficients slope`, exactly stages
`0 .. slope` of the 4-stage cascade are unbypassed and stages `slope+1 .. 3`
are bypassed, for every slope and every coefficient array, regardless of the
chain's previous (stale) contents. -/
theorem c3_updateCutFilter_bypass_pattern {α : Type} (chain : CutFilter α)
    (coefficients : Fin 4 → α) (slope : Slope) (i : Fin 4) :
    ((updateCutFilter chain coefficients slope).stage i).bypassed =
      decide (slope.toNat < i.val) := by
  cases slope <;> fin_cases i <;> rfl

/-- C4 (counterexample): the claim says `updateCutFilter` sets all 4 stages'
coefficient references (even the ones that will be bypassed).  With slope
12 dB/Oct and every array entry equal to 5, stage 3 keeps its previous
coefficient value 99: the bypassed stages' references are never written. -/
theorem c4_counterexample :
    ((updateCutFilter
        (CutFilter.mk ⟨1, false⟩ ⟨2, false⟩ ⟨3, false⟩ ⟨99, false⟩)
        (fun _ => (5 : ℕ)) .Slope_12).stage 3).coefficients = 99 ∧
      ((updateCutFilter
        (CutFilter.mk ⟨1, false⟩ ⟨2, false⟩ ⟨3, false⟩ ⟨99, false⟩)
        (fun _ => (5 : ℕ)) .Slope_12).stage 3).coefficients ≠ 5 := by
  decide

/-- C4 (amended): `updateCutFilter` first sets all four bypass flags to true,
then — from stage `slope` down to stage 0 — writes each of those stages'
coefficients and clears its bypass flag.  Stages `0 .. slope` receive
`coefficients[i]`; stages above `slope` keep their previous coefficients (and
stay bypassed), so raising the order later would need a redesign. -/
theorem c4_updateCutFilter_coefficients {α : Type} (chain : CutFilter α)
    (coefficients : Fin 4 → α) (slope : Slope) (i : Fin 4) :
    ((updateCutFilter chain coefficients slope).stage i).coefficients =
      if i.val ≤ slope.toNat then coefficients i
      else (chain.stage i).coefficients := by
  cases slope <;> fin_cases i <;> rfl

/-! ## Lock-free block FIFO (PluginProcessor.h lines 15-50)

`Fifo<T>` wraps a `std::array<T, 30>` of slots and a `juce::AbstractFifo
fifo {30}`.  The `AbstractFifo` index logic is reproduced from JUCE,
specialised to the one-element transfers the repository performs:
`prepareToWrite(1)` computes `freeSpace = ve >= vs ? size - (ve - vs) :
vs - ve` and grants the write only when `min(1, freeSpace - 1) > 0`;
`finishedWrite` advances `validEnd` modulo the buffer size.
`prepareToRead(1)` grants the read when `getNumReady >= 1`;
`finishedRead` advances `validStart` modulo the buffer size.
Consequently an `AbstractFifo` of size `N` never holds more than `N - 1`
elements. -/

/-- The index state of a `juce::AbstractFifo`. -/
structure AbstractFifo where
  bufferSize : ℕ
  validStart : ℕ
  validEnd : ℕ
  deriving DecidableEq, Repr

/-- JUCE's `AbstractFifo::getNumReady`. -/
def AbstractFifo.getNumReady (f : AbstractFifo) : ℕ :=
  if f.validStart ≤ f.validEnd then f.validEnd - f.validStart
  else f.bufferSize - (f.validStart - f.validEnd)

/-- Capacity of `Fifo<T>`: `static constexpr int Capacity = 30`. -/
def Fifo.Capacity : ℕ := 30

/-- The `Fifo<T>`: the slot array together with the `AbstractFifo` index state. -/
structure Fifo (α : Type) where
  buffers : List α
  fifo : AbstractFifo

/-- A freshly constructed `Fifo<T>` whose slots were set up by `prepared`:
30 equal blank slots, `AbstractFifo` indices at zero. -/
def Fifo.prepared (blank : α) : Fifo α :=
  { buffers := List.replicate Fifo.Capacity blank
    fifo := { bufferSize := Fifo.Capacity, validStart := 0, validEnd := 0 } }

/-- The method `Fifo::push` (PluginProcessor.h lines 27-34): `fifo.write(1)`; if a slot
was granted, copy the block into `buffers[write.startIndex1]` and (via the
`ScopedWrite` destructor) advance `validEnd`; otherwise return false leaving
everything unchanged. -/
def Fifo.push (f : Fifo α) (t : α) : Bool × Fifo α :=
  if 1 ≤ (if f.fifo.validStart ≤ f.fifo.validEnd then
        f.fifo.bufferSize - (f.fifo.validEnd - f.fifo.validStart)
      else f.fifo.validStart - f.fifo.validEnd) - 1 then
    (true,
      { buffers := f.buffers.set f.fifo.validEnd t
        fifo := { f.fifo with
          validEnd := (f.fifo.validEnd + 1) % f.fifo.bufferSize } })
  else (false, f)

/-- The method `Fifo::pull` (PluginProcessor.h lines 35-42): `fifo.read(1)`; if an
element is ready, copy `buffers[read.startIndex1]` out and advance
`validStart`; otherwise return false leaving everything unchanged. -/
def Fifo.pull (f : Fifo α) : Bool × Fifo α × Option α :=
  if 1 ≤ f.fifo.getNumReady then
    (true,
      { f with fifo := { f.fifo with
          validStart := (f.fifo.validStart + 1) % f.fifo.bufferSize } },
      f.buffers.get? f.fifo.validStart)
  else (false, f, none)

/-- The method `Fifo::getNumAvailableForReading`. -/
def Fifo.getNumAvailableForReading (f : Fifo α) : ℕ :=
  f.fifo.getNumReady

/-- Iterates `n` consecutive `push` calls with the same block, counting successes. -/
def Fifo.pushTimes (t : α) : ℕ → Fifo α → ℕ × Fifo α
  | 0, f => (0, f)
  | n + 1, f =>
    let first := f.push t
    let rest := Fifo.pushTimes t n first.2
    ((if first.1 then 1 else 0) + rest.1, rest.2)

/-- C7 (counterexample): the claim describes a full FIFO as the result of
capacity-many (30) successful pushes.  The `AbstractFifo` index logic grants
a write only while `freeSpace - 1 >= 1`, so an empty `Fifo` accepts exactly
29 pushes: pushing 30 times from empty yields 29 successes, not 30. -/
theorem c7_counterexample :
    (Fifo.pushTimes (7 : ℕ) 30 (Fifo.prepared 0)).1 = 29 ∧
      (Fifo.pushTimes (7 : ℕ) 30 (Fifo.prepared 0)).1 ≠ 30 := by
  decide

/-- C7 (amended): the FIFO is full after `Capacity - 1 = 29` successful pushes
(one ring slot is always kept free by `AbstractFifo`).  On a full FIFO, `push`
returns false without blocking and leaves the FIFO (slots and both cursors)
unchanged; on an empty FIFO, `pull` returns false without blocking and leaves
the FIFO unchanged. -/
theorem c7_full_push_empty_pull {α : Type} (t : α) (f g : Fifo α)
    (hsize : f.fifo.bufferSize = Fifo.Capacity)
    (hfull : f.fifo.getNumReady = Fifo.Capacity - 1)
    (hempty : g.fifo.getNumReady = 0) :
    f.push t = (false, f) ∧ g.pull = (false, g, none) := by
  constructor
  · have hfree :
        (if f.fifo.validStart ≤ f.fifo.validEnd then
            f.fifo.bufferSize - (f.fifo.validEnd - f.fifo.validStart)
          else f.fifo.validStart - f.fifo.validEnd) = 1 := by
      unfold AbstractFifo.getNumReady at hfull
      rw [hsize] at hfull ⊢
      rw [Fifo.Capacity] at hfull ⊢
      split at hfull <;> split <;> omega
    rw [Fifo.push, hfree]
    norm_num
  · rw [Fifo.pull, hempty]
    rfl

/-- C7 witness: a concrete full FIFO (cursors 0 and 29, 29 blocks ready) and a
concrete empty FIFO. -/
theorem c7_witness :
    Fifo.push ⟨List.replicate 30 (0 : ℕ), ⟨30, 0, 29⟩⟩ 7 =
        (false, ⟨List.replicate 30 (0 : ℕ), ⟨30, 0, 29⟩⟩) ∧
      Fifo.pull (Fifo.prepared (0 : ℕ)) = (false, Fifo.prepared (0 : ℕ), none) :=
  c7_full_push_empty_pull 7 ⟨List.replicate 30 (0 : ℕ), ⟨30, 0, 29⟩⟩
    (Fifo.prepared (0 : ℕ)) (by decide) (by decide) (by decide)

/-! ## SingleChannelSampleFifo (PluginProcessor.h lines 52-112) -/

/-- The C++ `enum Channel { Right, Left }` — Right is 0, Left is 1. -/
inductive Channel where
  | Right
  | Left
  deriving DecidableEq, Repr

/-- The integral value of the `Channel` enumerator. -/
def Channel.toNat : Channel → ℕ
  | .Right => 0
  | .Left => 1

/-- The `SingleChannelSampleFifo<BlockType>`: accumulates single samples of one
channel into `bufferToFill` and hands completed blocks to `audioBufferFifo`.
A block is a `List α` of samples. -/
structure SingleChannelSampleFifo (α : Type) where
  channelToUse : Channel
  fifoIndex : ℕ
  audioBufferFifo : Fifo (List α)
  bufferToFill : List α
  prepared : Bool
  size : ℕ

/-- The constructor `SingleChannelSampleFifo(Channel ch)`: unprepared, all
counters zero, empty buffers. -/
def SingleChannelSampleFifo.init (ch : Channel) : SingleChannelSampleFifo α :=
  { channelToUse := ch
    fifoIndex := 0
    audioBufferFifo := ⟨List.replicate Fifo.Capacity [], ⟨Fifo.Capacity, 0, 0⟩⟩
    bufferToFill := []
    prepared := false
    size := 0 }

/-- The method `SingleChannelSampleFifo::prepare(bufferSize)` (lines 75-87): size the
accumulation buffer to `bufferSize` zeroed samples, prepare the block FIFO's
slots, reset the fill cursor to 0 and mark the collector prepared. -/
def SingleChannelSampleFifo.prepare [Zero α] (bufferSize : ℕ)
    (s : SingleChannelSampleFifo α) : SingleChannelSampleFifo α :=
  { s with
    size := bufferSize
    bufferToFill := List.replicate bufferSize 0
    audioBufferFifo :=
      { s.audioBufferFifo with
        buffers := List.replicate Fifo.Capacity (List.replicate bufferSize 0) }
    fifoIndex := 0
    prepared := true }

/-- The method `pushNextSampleIntoFifo(sample)` (lines 101-111): if the fill cursor has
reached the buffer length, push the filled buffer into the FIFO (success
ignored) and reset the cursor to 0; then write the sample at the cursor and
increment the cursor.  The second component counts FIFO pushes performed by
the call (0 or 1). -/
def SingleChannelSampleFifo.pushNextSampleIntoFifo (sample : α)
    (s : SingleChannelSampleFifo α) : SingleChannelSampleFifo α × ℕ :=
  let afterPush :=
    if s.fifoIndex = s.bufferToFill.length then
      ({ s with
          audioBufferFifo := (s.audioBufferFifo.push s.bufferToFill).2
          fifoIndex := 0 }, 1)
    else (s, 0)
  let t := afterPush.1
  ({ t with
      bufferToFill := t.bufferToFill.set t.fifoIndex sample
      fifoIndex := t.fifoIndex + 1 }, afterPush.2)

/-- The method `SingleChannelSampleFifo::update(buffer)` (lines 66-73) restricted to the
samples of the collector's channel: every incoming sample is fed to
`pushNextSampleIntoFifo` in order.  The second component counts the FIFO
pushes triggered by the call. -/
def SingleChannelSampleFifo.update :
    List α → SingleChannelSampleFifo α → SingleChannelSampleFifo α × ℕ
  | [], s => (s, 0)
  | sample :: rest, s =>
    let step := SingleChannelSampleFifo.pushNextSampleIntoFifo sample s
    let next := SingleChannelSampleFifo.update rest step.1
    (next.1, step.2 + next.2)

/-- While the fill cursor stays strictly inside the accumulation buffer, no
push happens: the cursor just advances by one per sample and the FIFO and
buffer length are untouched. -/
theorem scs_update_no_push {α : Type} (samples : List α)
    (s : SingleChannelSampleFifo α)
    (h : s.fifoIndex + samples.length ≤ s.bufferToFill.length) :
    (SingleChannelSampleFifo.update samples s).2 = 0 ∧
      (SingleChannelSampleFifo.update samples s).1.fifoIndex =
        s.fifoIndex + samples.length ∧
      (SingleChannelSampleFifo.update samples s).1.bufferToFill.length =
        s.bufferToFill.length ∧
      (SingleChannelSampleFifo.update samples s).1.audioBufferFifo =
        s.audioBufferFifo := by
  induction samples generalizing s with
  | nil => simp [SingleChannelSampleFifo.update]
  | cons a rest ih =>
    have hne : ¬ s.fifoIndex = s.bufferToFill.length := by
      simp only [List.length_cons] at h
      omega
    have hstep :
        SingleChannelSampleFifo.pushNextSampleIntoFifo a s =
          ({ s with
              bufferToFill := s.bufferToFill.set s.fifoIndex a
              fifoIndex := s.fifoIndex + 1 }, 0) := by
      simp [SingleChannelSampleFifo.pushNextSampleIntoFifo, hne]
    have hrec := ih
      { s with
        bufferToFill := s.bufferToFill.set s.fifoIndex a
        fifoIndex := s.fifoIndex + 1 }
      (by
        simp only [List.length_set, List.length_cons] at h ⊢
        omega)
    simp only [SingleChannelSampleFifo.update, hstep] at *
    refine ⟨by simpa using hrec.1, ?_, ?_, by simpa using hrec.2.2.2⟩
    · have := hrec.2.1
      simp only [List.length_cons]
      omega
    · have := hrec.2.2.1
      simp only [List.length_set] at this
      simpa using this

/-- The collector's `update` distributes over list append, accumulating the push counts. -/
theorem scs_update_append {α : Type} (xs ys : List α)
    (s : SingleChannelSampleFifo α) :
    SingleChannelSampleFifo.update (xs ++ ys) s =
      ((SingleChannelSampleFifo.update ys
          (SingleChannelSampleFifo.update xs s).1).1,
        (SingleChannelSampleFifo.update xs s).2 +
          (SingleChannelSampleFifo.update ys
            (SingleChannelSampleFifo.update xs s).1).2) := by
  induction xs generalizing s with
  | nil => simp [SingleChannelSampleFifo.update]
  | cons a rest ih =>
    simp [SingleChannelSampleFifo.update, ih, Nat.add_assoc]

/-- Feeding one sample to a collector whose fill cursor has reached the
buffer length: the filled buffer is pushed, the cursor resets and then moves
to 1 after the incoming sample is written at position 0. -/
theorem scs_update_full_step {α : Type} (x : α) (s : SingleChannelSampleFifo α)
    (h : s.fifoIndex = s.bufferToFill.length) :
    (SingleChannelSampleFifo.update [x] s).2 = 1 ∧
      (SingleChannelSampleFifo.update [x] s).1.fifoIndex = 1 ∧
      (SingleChannelSampleFifo.update [x] s).1.audioBufferFifo =
        (s.audioBufferFifo.push s.bufferToFill).2 := by
  refine ⟨?_, ?_, ?_⟩ <;>
    simp [SingleChannelSampleFifo.update,
      SingleChannelSampleFifo.pushNextSampleIntoFifo, h]

/-- A push into a `Fifo` whose cursors are at the initial position succeeds
and leaves exactly one block available for reading. -/
theorem fifo_push_from_initial_cursors {α : Type} (f : Fifo α) (blk : α)
    (h : f.fifo = ⟨30, 0, 0⟩) :
    (f.push blk).2.getNumAvailableForReading = 1 := by
  simp [Fifo.push, Fifo.getNumAvailableForReading, AbstractFifo.getNumReady, h]

/-- C5 (counterexample): the claim says feeding exactly `blockSize` samples
triggers exactly one push and the cursor resets to 0.  With block size 2,
feeding two samples to a freshly prepared collector triggers zero pushes and
leaves the fill cursor at 2 (the push is deferred to the next sample). -/
theorem c5_counterexample :
    (SingleChannelSampleFifo.update [1, 2]
        (SingleChannelSampleFifo.prepare 2
          (SingleChannelSampleFifo.init (α := ℕ) Channel.Left))).2 = 0 ∧
      (SingleChannelSampleFifo.update [1, 2]
        (SingleChannelSampleFifo.prepare 2
          (SingleChannelSampleFifo.init (α := ℕ) Channel.Left))).2 ≠ 1 ∧
      (SingleChannelSampleFifo.update [1, 2]
        (SingleChannelSampleFifo.prepare 2
          (SingleChannelSampleFifo.init (α := ℕ) Channel.Left))).1.fifoIndex = 2 := by
  decide

/-- C5 (amended): `pushNextSampleIntoFifo` tests the cursor before writing,
so for a freshly prepared collector with block size `B`, feeding exactly `B`
samples triggers zero pushes, leaves the cursor at `B` and the FIFO empty;
the full block is pushed when the next sample arrives: feeding `B + 1`
samples triggers exactly one push (the FIFO then holds one block) and leaves
the cursor at 1 — the cursor is reset to 0 exactly when the full block is
pushed, immediately before the triggering sample is written. -/
theorem c5_block_push_is_deferred {α : Type} [Zero α] (B : ℕ)
    (samples : List α) (hlen : samples.length = B) (x : α) :
    ((SingleChannelSampleFifo.update samples
        (SingleChannelSampleFifo.prepare B
          (SingleChannelSampleFifo.init Channel.Left))).2 = 0 ∧
      (SingleChannelSampleFifo.update samples
        (SingleChannelSampleFifo.prepare B
          (SingleChannelSampleFifo.init Channel.Left))).1.fifoIndex = B ∧
      (SingleChannelSampleFifo.update samples
        (SingleChannelSampleFifo.prepare B
          (SingleChannelSampleFifo.init Channel.Left))).1.audioBufferFifo.getNumAvailableForReading
        = 0) ∧
    ((SingleChannelSampleFifo.update (samples ++ [x])
        (SingleChannelSampleFifo.prepare B
          (SingleChannelSampleFifo.init Channel.Left))).2 = 1 ∧
      (SingleChannelSampleFifo.update (samples ++ [x])
        (SingleChannelSampleFifo.prepare B
          (SingleChannelSampleFifo.init Channel.Left))).1.fifoIndex = 1 ∧
      (SingleChannelSampleFifo.update (samples ++ [x])
        (SingleChannelSampleFifo.prepare B
          (SingleChannelSampleFifo.init Channel.Left))).1.audioBufferFifo.getNumAvailableForReading
        = 1) := by
  have hfi0 :
      (SingleChannelSampleFifo.prepare B
        (SingleChannelSampleFifo.init (α := α) Channel.Left)).fifoIndex = 0 := rfl
  have hbl0 :
      (SingleChannelSampleFifo.prepare B
        (SingleChannelSampleFifo.init (α := α) Channel.Left)).bufferToFill.length
        = B := by
    simp [SingleChannelSampleFifo.prepare, SingleChannelSampleFifo.init]
  have hfifo0 :
      (SingleChannelSampleFifo.prepare B
        (SingleChannelSampleFifo.init (α := α) Channel.Left)).audioBufferFifo.fifo
        = ⟨30, 0, 0⟩ := rfl
  have hnp := scs_update_no_push samples
    (SingleChannelSampleFifo.prepare B
      (SingleChannelSampleFifo.init (α := α) Channel.Left))
    (by rw [hfi0, hbl0, hlen]; omega)
  obtain ⟨hcount, hidx, hblen, hfifo⟩ := hnp
  have hready0 :
      (SingleChannelSampleFifo.update samples
        (SingleChannelSampleFifo.prepare B
          (SingleChannelSampleFifo.init (α := α)
            Channel.Left))).1.audioBufferFifo.getNumAvailableForReading = 0 := by
    rw [Fifo.getNumAvailableForReading, hfifo, hfifo0]
    rfl
  refine ⟨⟨hcount, by rw [hidx, hfi0, hlen]; omega, hready0⟩, ?_⟩
  rw [scs_update_append]
  have hfull :
      (SingleChannelSampleFifo.update samples
        (SingleChannelSampleFifo.prepare B
          (SingleChannelSampleFifo.init (α := α)
            Channel.Left))).1.fifoIndex =
      (SingleChannelSampleFifo.update samples
        (SingleChannelSampleFifo.prepare B
          (SingleChannelSampleFifo.init (α := α)
            Channel.Left))).1.bufferToFill.length := by
    rw [hidx, hblen, hfi0, hbl0, hlen]
    omega
  have hstep := scs_update_full_step x _ hfull
  refine ⟨by rw [hcount, hstep.1], by rw [hstep.2.1], ?_⟩
  rw [hstep.2.2]
  exact fifo_push_from_initial_cursors _ _ (by rw [hfifo, hfifo0])

/-- C5 witness: block size 2, samples `[7, 8]`, extra sample 9. -/
theorem c5_witness :
    ((SingleChannelSampleFifo.update [7, 8]
        (SingleChannelSampleFifo.prepare 2
          (SingleChannelSampleFifo.init (α := ℕ) Channel.Left))).2 = 0 ∧
      (SingleChannelSampleFifo.update [7, 8]
        (SingleChannelSampleFifo.prepare 2
          (SingleChannelSampleFifo.init (α := ℕ) Channel.Left))).1.fifoIndex = 2 ∧
      (SingleChannelSampleFifo.update [7, 8]
        (SingleChannelSampleFifo.prepare 2
          (SingleChannelSampleFifo.init (α := ℕ) Channel.Left))).1.audioBufferFifo.getNumAvailableForReading
        = 0) ∧
    ((SingleChannelSampleFifo.update ([7, 8] ++ [9])
        (SingleChannelSampleFifo.prepare 2
          (SingleChannelSampleFifo.init (α := ℕ) Channel.Left))).2 = 1 ∧
      (SingleChannelSampleFifo.update ([7, 8] ++ [9])
        (SingleChannelSampleFifo.prepare 2
          (SingleChannelSampleFifo.init (α := ℕ) Channel.Left))).1.fifoIndex = 1 ∧
      (SingleChannelSampleFifo.update ([7, 8] ++ [9])
        (SingleChannelSampleFifo.prepare 2
          (SingleChannelSampleFifo.init (α := ℕ) Channel.Left))).1.audioBufferFifo.getNumAvailableForReading
        = 1) :=
  c5_block_push_is_deferred 2 [7, 8] (by decide) 9

/-! ## MonoChain and the editor's mirror chain

`MonoChain = ProcessorChain<CutFilter, Filter, CutFilter>` (PluginProcessor.h
line 137).  The editor's `ResponseCurveComponent` owns its own `MonoChain`
instance; its cut-stage coefficient references are written from the
`ReferenceCountedArray` returned by the Butterworth designers, whose
`operator[]` yields a null pointer out of range — hence `Option Section`
for a cut stage's coefficient value. -/

/-- The `MonoChain`: LowCut cascade, Peak filter link, HighCut cascade. -/
structure MonoChain (α π : Type) where
  lowCut : CutFilter α
  peak : FilterStage π
  highCut : CutFilter α

/-- The editor's mirror chain: cut stages hold the (nullable) designed
sections, the peak link holds the forwarded peak design request. -/
abbrev EditorChain := MonoChain (Option Section) PeakSpec

/-- The method `ResponseCurveComponent::updateChain` (PluginEditor.cpp lines 469-478):
read a fresh `ChainSettings` snapshot, design new peak coefficients and both
cut coefficient arrays, copy the peak coefficients into the mirror chain's
peak link and run `updateCutFilter` on both cut cascades. -/
noncomputable def updateChain (settings : ChainSettings) (sampleRate : ℝ)
    (chain : EditorChain) : EditorChain :=
  let peakCoefficients := makePeakFilter settings sampleRate
  let chain1 : EditorChain :=
    { chain with peak := { chain.peak with coefficients := peakCoefficients } }
  let lowCutCoefficients := makeLowCutFilter settings sampleRate
  let highCutCoefficients := makeHighCutFilter settings sampleRate
  { chain1 with
    lowCut := updateCutFilter chain1.lowCut
      (fun i => lowCutCoefficients.get? i) settings.lowCutSlope
    highCut := updateCutFilter chain1.highCut
      (fun i => highCutCoefficients.get? i) settings.highCutSlope }

/-! ## ResponseCurveComponent’s listener/timer protocol (PluginEditor.cpp
lines 444-478) -/

/-- The state of a `ResponseCurveComponent` that the parameter-listener and
timer callbacks touch: the atomic `parametersChanged` flag, the processor's
parameter snapshot source and sample rate, the mirror `monoChain`, the
pointer to the processor's left-channel sample FIFO, and two instrumentation
counters observing how often `updateChain` and `repaint` run. -/
structure ResponseCurveComponent where
  parametersChanged : Bool
  settings : ChainSettings
  sampleRate : ℝ
  monoChain : EditorChain
  leftChannelFifo : SingleChannelSampleFifo (List ℝ)
  updateChainCount : ℕ
  repaintCount : ℕ

/-- The handler `ResponseCurveComponent::parameterValueChanged(parameterIndex, newValue)`
(lines 444-446): its entire body is `parametersChanged.set(true)`. -/
def parameterValueChanged (parameterIndex : ℕ) (newValue : ℝ)
    (s : ResponseCurveComponent) : ResponseCurveComponent :=
  { s with parametersChanged := true }

/-- The `while (leftChanelFifo->getNumCompleteBuffersAvailable() > 0)` loop of
`timerCallback`, fuelled by the number of available buffers (each successful
`getAudioBuffer` pull removes exactly one, so that fuel is enough). -/
def drainAvailableBlocks {α : Type} :
    ℕ → SingleChannelSampleFifo α → SingleChannelSampleFifo α
  | 0, s => s
  | n + 1, s =>
    if 0 < s.audioBufferFifo.getNumAvailableForReading then
      drainAvailableBlocks n
        { s with audioBufferFifo := (s.audioBufferFifo.pull).2.1 }
    else s

/-- The callback `ResponseCurveComponent::timerCallback` (lines 450-467): drain the left
channel FIFO, then `parametersChanged.compareAndSetBool(false, true)` — if the
flag was set, clear it, run `updateChain` and signal a repaint. -/
noncomputable def timerCallback (s : ResponseCurveComponent) :
    ResponseCurveComponent :=
  let s1 := { s with
    leftChannelFifo :=
      drainAvailableBlocks
        s.leftChannelFifo.audioBufferFifo.getNumAvailableForReading
        s.leftChannelFifo }
  if s1.parametersChanged then
    { s1 with
      parametersChanged := false
      monoChain := updateChain s1.settings s1.sampleRate s1.monoChain
      updateChainCount := s1.updateChainCount + 1
      repaintCount := s1.repaintCount + 1 }
  else s1

/-- C9: a parameter-change notification only sets the `parametersChanged`
flag — the mirror chain, the FIFO, the counters and everything else are
untouched — and the expensive `updateChain` recomputation runs only inside
`timerCallback`, exactly once per timer cycle when the flag was set (and not
at all when it was clear), the flag being cleared by that cycle. -/
theorem c9_flag_only_and_deferred_update (s : ResponseCurveComponent)
    (parameterIndex : ℕ) (newValue : ℝ) :
    parameterValueChanged parameterIndex newValue s =
        { s with parametersChanged := true } ∧
      (timerCallback s).updateChainCount =
        s.updateChainCount + (if s.parametersChanged then 1 else 0) ∧
      (timerCallback s).repaintCount =
        s.repaintCount + (if s.parametersChanged then 1 else 0) ∧
      (timerCallback s).parametersChanged = false := by
  refine ⟨rfl, ?_, ?_, ?_⟩ <;>
    cases hp : s.parametersChanged <;> simp [timerCallback, hp]

/-! ## C8: the response-curve magnitude computation
(`ResponseCurveComponent::paint`, PluginEditor.cpp lines 216-301)

The per-frequency magnitude of one IIR coefficient set
(`coefficients->getMagnitudeForFrequency(freq, sampleRate)`) is a JUCE
library function of the section's taps; the paint loop's structure — which
stage contributes, in which order, and how the result is converted — is the
repository's.  The computation is therefore embedded with the per-section
magnitude responses as explicit function parameters, so the theorem holds
for every possible magnitude response. -/

/-- JUCE's `mapToLog10(value0To1, 20.0, 20000.0)`:
`pow(10, value0To1 * (log10 max - log10 min) + log10 min)`. -/
noncomputable def mapToLog10 (value0To1 logRangeMin logRangeMax : ℝ) : ℝ :=
  (10 : ℝ) ^ (value0To1 *
    (Real.logb 10 logRangeMax - Real.logb 10 logRangeMin) +
      Real.logb 10 logRangeMin)

/-- JUCE's `Decibels::gainToDecibels` with the default -100 dB floor:
`gain > 0 ? max(-100, 20 * log10 gain) : -100`. -/
noncomputable def gainToDecibels (gain : ℝ) : ℝ :=
  if 0 < gain then max (-100) (Real.logb 10 gain * 20) else -100

/-- The body of the paint loop at one frequency: start from unit gain and,
for each of the nine possible stages in the code's order (peak, lowCut 0-3,
highCut 0-3), multiply in that stage's magnitude at `freq` unless the stage
is bypassed.  `magOfSection` / `magOfPeak` are the per-coefficient-set
magnitude responses `(coefficients, freq, sampleRate) ↦ |H(freq)|`. -/
def paintMagnitudeAt (magOfSection : Option Section → ℝ → ℝ → ℝ)
    (magOfPeak : PeakSpec → ℝ → ℝ → ℝ) (chain : EditorChain)
    (sampleRate freq : ℝ) : ℝ :=
  let mag : ℝ := 1
  let mag := if ¬ chain.peak.bypassed then
    mag * magOfPeak chain.peak.coefficients freq sampleRate else mag
  let mag := if ¬ chain.lowCut.s0.bypassed then
    mag * magOfSection chain.lowCut.s0.coefficients freq sampleRate else mag
  let mag := if ¬ chain.lowCut.s1.bypassed then
    mag * magOfSection chain.lowCut.s1.coefficients freq sampleRate else mag
  let mag := if ¬ chain.lowCut.s2.bypassed then
    mag * magOfSection chain.lowCut.s2.coefficients freq sampleRate else mag
  let mag := if ¬ chain.lowCut.s3.bypassed then
    mag * magOfSection chain.lowCut.s3.coefficients freq sampleRate else mag
  let mag := if ¬ chain.highCut.s0.bypassed then
    mag * magOfSection chain.highCut.s0.coefficients freq sampleRate else mag
  let mag := if ¬ chain.highCut.s1.bypassed then
    mag * magOfSection chain.highCut.s1.coefficients freq sampleRate else mag
  let mag := if ¬ chain.highCut.s2.bypassed then
    mag * magOfSection chain.highCut.s2.coefficients freq sampleRate else mag
  let mag := if ¬ chain.highCut.s3.bypassed then
    mag * magOfSection chain.highCut.s3.coefficients freq sampleRate else mag
  mag

/-- The `i`-th sampled frequency of the paint loop over a response area of
width `w`: `mapToLog10(double(i) / double(w), 20.0, 20000.0)`. -/
noncomputable def paintFrequency (w i : ℕ) : ℝ :=
  mapToLog10 ((i : ℝ) / (w : ℝ)) 20 20000

/-- The value `magnitudes[i]` as computed by the paint loop:
`Decibels::gainToDecibels(mag)` of the accumulated magnitude at the `i`-th
sampled frequency. -/
noncomputable def paintMagnitudes (magOfSection : Option Section → ℝ → ℝ → ℝ)
    (magOfPeak : PeakSpec → ℝ → ℝ → ℝ) (chain : EditorChain)
    (sampleRate : ℝ) (w i : ℕ) : ℝ :=
  gainToDecibels
    (paintMagnitudeAt magOfSection magOfPeak chain sampleRate
      (paintFrequency w i))

/-- C8: when the peak link and all four stages of both cut cascades are
bypassed, the response-curve computation yields exactly 0 dB (unit gain
converted to decibels) at every one of the `w` sampled points, whatever the
stages' magnitude responses are; and each sampled frequency, obtained by
mapping `i / w` log-uniformly, lies in the audible band `[20 Hz, 20000 Hz)`. -/
theorem c8_flat_response_when_all_bypassed
    (magOfSection : Option Section → ℝ → ℝ → ℝ)
    (magOfPeak : PeakSpec → ℝ → ℝ → ℝ) (chain : EditorChain)
    (sampleRate : ℝ) (w i : ℕ) (hi : i < w)
    (hpeak : chain.peak.bypassed = true)
    (hlow : ∀ j : Fin 4, (chain.lowCut.stage j).bypassed = true)
    (hhigh : ∀ j : Fin 4, (chain.highCut.stage j).bypassed = true) :
    paintMagnitudes magOfSection magOfPeak chain sampleRate w i = 0 ∧
      20 ≤ paintFrequency w i ∧ paintFrequency w i < 20000 := by
  have h0 := hlow 0
  have h1 := hlow 1
  have h2 := hlow 2
  have h3 := hlow 3
  have h4 := hhigh 0
  have h5 := hhigh 1
  have h6 := hhigh 2
  have h7 := hhigh 3
  simp only [CutFilter.stage] at h0 h1 h2 h3 h4 h5 h6 h7
  have hmag : paintMagnitudeAt magOfSection magOfPeak chain sampleRate
      (paintFrequency w i) = 1 := by
    simp [paintMagnitudeAt, hpeak, h0, h1, h2, h3, h4, h5, h6, h7]
  have hw : (0 : ℝ) < (w : ℝ) := by
    have : 0 < w := Nat.lt_of_le_of_lt (Nat.zero_le i) hi
    exact_mod_cast this
  have ht0 : (0 : ℝ) ≤ (i : ℝ) / (w : ℝ) :=
    div_nonneg (Nat.cast_nonneg i) (le_of_lt hw)
  have ht1 : (i : ℝ) / (w : ℝ) < 1 :=
    (div_lt_one hw).mpr (by exact_mod_cast hi)
  have hΔ : 0 < Real.logb 10 20000 - Real.logb 10 20 := by
    have := Real.logb_lt_logb (b := 10) (by norm_num)
      (x := 20) (y := 20000) (by norm_num) (by norm_num)
    linarith
  refine ⟨?_, ?_, ?_⟩
  · rw [paintMagnitudes, hmag, gainToDecibels]
    rw [if_pos (by norm_num : (0 : ℝ) < 1)]
    rw [Real.logb_one]
    norm_num
  · have hexp : Real.logb 10 20 ≤
        (i : ℝ) / (w : ℝ) * (Real.logb 10 20000 - Real.logb 10 20) +
          Real.logb 10 20 := by
      nlinarith
    have h20 : (10 : ℝ) ^ Real.logb 10 20 = 20 :=
      Real.rpow_logb (by norm_num) (by norm_num) (by norm_num)
    calc (20 : ℝ) = (10 : ℝ) ^ Real.logb 10 20 := h20.symm
      _ ≤ paintFrequency w i := by
          rw [paintFrequency, mapToLog10]
          exact (Real.rpow_le_rpow_left_iff (by norm_num)).mpr hexp
  · have hexp : (i : ℝ) / (w : ℝ) *
        (Real.logb 10 20000 - Real.logb 10 20) + Real.logb 10 20 <
          Real.logb 10 20000 := by
      nlinarith
    have h20000 : (10 : ℝ) ^ Real.logb 10 20000 = 20000 :=
      Real.rpow_logb (by norm_num) (by norm_num) (by norm_num)
    calc paintFrequency w i
        < (10 : ℝ) ^ Real.logb 10 20000 := by
          rw [paintFrequency, mapToLog10]
          exact (Real.rpow_lt_rpow_left_iff (by norm_num)).mpr hexp
      _ = 20000 := h20000

/-- C8 witness: a concrete fully bypassed chain, arbitrary nonzero magnitude
oracles, width 1, sample point 0. -/
theorem c8_witness :
    paintMagnitudes (fun _ _ _ => 2) (fun _ _ _ => 3)
        (MonoChain.mk
          (CutFilter.mk ⟨none, true⟩ ⟨none, true⟩ ⟨none, true⟩ ⟨none, true⟩)
          ⟨⟨44100, 750, 1, 1⟩, true⟩
          (CutFilter.mk ⟨none, true⟩ ⟨none, true⟩ ⟨none, true⟩ ⟨none, true⟩))
        44100 1 0 = 0 ∧
      20 ≤ paintFrequency 1 0 ∧ paintFrequency 1 0 < 20000 :=
  c8_flat_response_when_all_bypassed (fun _ _ _ => 2) (fun _ _ _ => 3)
    (MonoChain.mk
      (CutFilter.mk ⟨none, true⟩ ⟨none, true⟩ ⟨none, true⟩ ⟨none, true⟩)
      ⟨⟨44100, 750, 1, 1⟩, true⟩
      (CutFilter.mk ⟨none, true⟩ ⟨none, true⟩ ⟨none, true⟩ ⟨none, true⟩))
    44100 1 0 (by decide) rfl
    (fun j => by fin_cases j <;> rfl) (fun j => by fin_cases j <;> rfl)

/-! ## C10: processBlock channel accesses vs. supported bus layouts
(PluginProcessor.cpp lines 124-148 and 150-193) -/

/-- The channel sets `isBusesLayoutSupported` distinguishes:
`juce::AudioChannelSet::mono()`, `::stereo()`, or anything else. -/
inductive AudioChannelSet where
  | mono
  | stereo
  | other
  deriving DecidableEq, Repr

/-- The method `SimpleEQAudioProcessor::isBusesLayoutSupported` (lines 125-147, non-MIDI
branch): reject when the main output set is neither mono nor stereo, reject
when input and output sets differ, accept otherwise — so mono in/out is
accepted. -/
def isBusesLayoutSupported (mainInput mainOutput : AudioChannelSet) : Bool :=
  if mainOutput ≠ AudioChannelSet.mono ∧ mainOutput ≠ AudioChannelSet.stereo then
    false
  else if mainOutput ≠ mainInput then false
  else true

/-- A `juce::AudioBuffer`: one sample list per channel. -/
structure AudioBuffer (α : Type) where
  channels : List (List α)

/-- The call `buffer.getNumChannels()`. -/
def AudioBuffer.getNumChannels (b : AudioBuffer α) : ℕ :=
  b.channels.length

/-- The calls `block.getSingleChannelBlock(ch)` / `buffer.getReadPointer(ch)`: the
channel's samples when `ch` is in range, `none` (out-of-bounds access)
otherwise. -/
def AudioBuffer.getChannel (b : AudioBuffer α) (ch : ℕ) : Option (List α) :=
  b.channels.get? ch

/-- The channel accesses `processBlock` performs unconditionally (lines
176-192), in order: `block.getSingleChannelBlock(0)` and
`block.getSingleChannelBlock(1)` for the two processing contexts, then
`leftChannelFifo.update(buffer)` reading `getReadPointer(Channel::Left = 1)`
and `rightChannelFifo.update(buffer)` reading
`getReadPointer(Channel::Right = 0)`.  The result is `none` exactly when one
of these accesses is out of bounds. -/
def processBlockChannelAccesses (b : AudioBuffer α) :
    Option ((List α × List α) × (List α × List α)) := do
  let leftBlock ← b.getChannel 0
  let rightBlock ← b.getChannel 1
  let leftFifoSamples ← b.getChannel Channel.Left.toNat
  let rightFifoSamples ← b.getChannel Channel.Right.toNat
  pure ((leftBlock, rightBlock), (leftFifoSamples, rightFifoSamples))

/-- C10: `isBusesLayoutSupported` accepts a mono-in/mono-out layout, yet
`processBlock` unconditionally accesses buffer channels 0 and 1 — its channel
accesses succeed exactly when the incoming buffer has at least 2 channels,
and on a buffer with fewer than 2 channels the access to channel 1 is out of
bounds. -/
theorem c10_processBlock_requires_two_channels {α : Type} (b : AudioBuffer α) :
    isBusesLayoutSupported AudioChannelSet.mono AudioChannelSet.mono = true ∧
      (b.getNumChannels < 2 → processBlockChannelAccesses b = none) ∧
      (2 ≤ b.getNumChannels → (processBlockChannelAccesses b).isSome = true) := by
  refine ⟨rfl, ?_, ?_⟩
  · intro h
    match b with
    | ⟨[]⟩ => rfl
    | ⟨[c]⟩ => rfl
    | ⟨c₀ :: c₁ :: rest⟩ =>
      exfalso
      simp [AudioBuffer.getNumChannels] at h
      omega
  · intro h
    match b with
    | ⟨[]⟩ =>
      exfalso
      simp [AudioBuffer.getNumChannels] at h
    | ⟨[c]⟩ =>
      exfalso
      simp [AudioBuffer.getNumChannels] at h
    | ⟨c₀ :: c₁ :: rest⟩ => rfl

/-- C10 witness: a one-channel (mono) buffer makes the channel accesses fail,
while the layout filter accepts mono. -/
theorem c10_witness :
    isBusesLayoutSupported AudioChannelSet.mono AudioChannelSet.mono = true ∧
      processBlockChannelAccesses (AudioBuffer.mk [[(0 : ℕ)]]) = none :=
  ⟨(c10_processBlock_requires_two_channels (AudioBuffer.mk [[(0 : ℕ)]])).1,
    (c10_processBlock_requires_two_channels
      (AudioBuffer.mk [[(0 : ℕ)]])).2.1 (by decide)⟩

end SimpleEQ
